import Mathlib

/-!
Verification development for the go-mclogs-bot repository.

The embedding covers:
* the mclo.gs API client (package mclogs: PasteLog, GetRawLog, GetInsights),
  translated from the Go source with HTTP transport and JSON decoding made
  explicit oracle parameters;
* the Discord message handler handleMessageCreate (the concurrent variant:
  attachment count gate, content-type filter, typing indicator, per-attachment
  download / size-ceiling / paste / insights pipeline, embed-reply assembly).

Go byte strings are modelled as lists of natural numbers (each a byte value);
machine arithmetic never overflows in the modelled code paths.
-/

/-- Bytes of a Go byte slice or string: a list of byte values. -/
abbrev Bytes := List Nat

/-- Translation of strings.HasPrefix from the Go standard library: the second
argument is a prefix of the first, compared characterwise (equivalent to the
bytewise comparison for the ASCII patterns the bot uses). -/
def strStartsWith (s p : String) : Bool :=
  p.data.isPrefixOf s.data

/-- PasteResponse represents the response from uploading a log
(mclogs client source). -/
structure PasteResponse where
  Success : Bool
  ID : String
  URL : String
  Raw : String
  Error : String
deriving DecidableEq, Repr

/-- LogLine represents a line within a log entry (mclogs client source). -/
structure LogLine where
  Number : Int
  Content : String
deriving DecidableEq, Repr

/-- LogEntry represents a single log entry (mclogs client source); Time may be
null. -/
structure LogEntry where
  Level : Int
  Time : Option String
  Prefix : String
  Lines : List LogLine
deriving DecidableEq, Repr

/-- Solution represents a possible solution for a problem
(mclogs client source). -/
structure Solution where
  Message : String
deriving DecidableEq, Repr

/-- Problem represents a detected problem in the log (mclogs client source). -/
structure Problem where
  Message : String
  Counter : Int
  Entry : LogEntry
  Solutions : List Solution
deriving DecidableEq, Repr

/-- Information represents additional details parsed from the log
(mclogs client source). -/
structure Information where
  Message : String
  Counter : Int
  Label : String
  Value : String
  Entry : LogEntry
deriving DecidableEq, Repr

/-- Analysis contains parsed information from the log (mclogs client source). -/
structure Analysis where
  Problems : List Problem
  Information : List Information
deriving DecidableEq, Repr

/-- InsightsResponse represents the response from retrieving log insights
(mclogs client source). The name field of the Go struct called Type is
rendered TypeName because Type is reserved in Lean. -/
structure InsightsResponse where
  ID : String
  Name : String
  TypeName : String
  Version : String
  Title : String
  AnalysisData : Analysis
  Error : String
deriving DecidableEq, Repr

/-- JSON error envelope the client decodes on failure paths:
a success flag and an error string. -/
structure ErrEnvelope where
  Success : Bool
  Error : String
deriving DecidableEq, Repr

/-- An HTTP response as the client observes it: status code, the value of the
Content-Type header, and the body byte stream, which may fail when read
(modelling io read errors and, for JSON branches, a body that cannot be
drained by the decoder). -/
structure HTTPResponse where
  StatusCode : Nat
  ContentType : String
  Body : Except Unit Bytes

/-- Decoding oracles for the JSON bodies the client parses. A result of none
models a json.Decode failure on that body. -/
structure Wire where
  decodePaste : Bytes → Option PasteResponse
  decodeErrEnvelope : Bytes → Option ErrEnvelope
  decodeInsights : Bytes → Option InsightsResponse

/-- Error values the client can return, separated by origin: transport
failure (request construction or round trip), JSON decode failure, body read
failure on the raw-text path, and a service-reported error string. -/
inductive MclogsError where
  | transport : MclogsError
  | decode : MclogsError
  | readBody : MclogsError
  | service (msg : String) : MclogsError
deriving DecidableEq, Repr

/-- Run a JSON decoder against a response body, failing when the body stream
itself fails. -/
def decodeBody (dec : Bytes → Option α) : Except Unit Bytes → Option α
  | .error _ => none
  | .ok b => dec b

/-- Byte values of the characters of an ASCII string literal. -/
def asciiBytes (s : String) : Bytes :=
  s.data.map Char.toNat

/-- Is this byte left unescaped by the Go function url.QueryEscape:
ASCII letters, digits, and the four marks minus, underscore, dot, tilde. -/
def isUnreservedByte (c : Nat) : Bool :=
  (65 ≤ c && c ≤ 90) || (97 ≤ c && c ≤ 122) || (48 ≤ c && c ≤ 57) ||
  c = 45 || c = 95 || c = 46 || c = 126

/-- Uppercase hexadecimal digit for a value below 16, as url.QueryEscape
emits it. -/
def hexDigitUpper (n : Nat) : Nat :=
  if n < 10 then 48 + n else 55 + n

/-- Translation of url.QueryEscape from the Go standard library, on bytes:
space becomes plus, unreserved bytes pass through, every other byte becomes
percent followed by two uppercase hex digits. -/
def queryEscape : Bytes → Bytes
  | [] => []
  | c :: rest =>
    (if c = 32 then [43]
     else if isUnreservedByte c then [c]
     else [37, hexDigitUpper (c / 16), hexDigitUpper (c % 16)]) ++ queryEscape rest

/-- Value of a hexadecimal digit byte, accepting both cases, as the Go
unescape routine does. -/
def hexVal (c : Nat) : Option Nat :=
  if 48 ≤ c ∧ c ≤ 57 then some (c - 48)
  else if 65 ≤ c ∧ c ≤ 70 then some (c - 55)
  else if 97 ≤ c ∧ c ≤ 102 then some (c - 87)
  else none

/-- Translation of url.QueryUnescape from the Go standard library, on bytes:
percent introduces two hex digits, plus decodes to space, anything else passes
through; malformed percent escapes fail. -/
def queryUnescape : Bytes → Option Bytes
  | [] => some []
  | c :: rest =>
    if c = 37 then
      match rest with
      | h :: l :: rest2 =>
        match hexVal h, hexVal l, queryUnescape rest2 with
        | some hv, some lv, some r => some ((hv * 16 + lv) :: r)
        | _, _, _ => none
      | _ => none
    else if c = 43 then (queryUnescape rest).map (fun r => 32 :: r)
    else (queryUnescape rest).map (fun r => c :: r)

/-- Form encoding of the single content field, as PasteLog builds it:
url.Values with one key produces the key, an equals sign, and the
query-escaped value. -/
def formEncodeContent (content : Bytes) : Bytes :=
  asciiBytes "content=" ++ queryEscape content

/-- PasteLog uploads the given log content and returns the PasteResponse
(translated from the mclogs client source). The transport maps the
form-encoded request body to a transport failure or an HTTP response; the
client then decodes a PasteResponse from the body and rejects responses whose
success flag is false, propagating the service-supplied error string. -/
def PasteLog (w : Wire) (tr : Bytes → Except Unit HTTPResponse)
    (content : Bytes) : Except MclogsError PasteResponse :=
  match tr (formEncodeContent content) with
  | .error _ => .error .transport
  | .ok resp =>
    match decodeBody w.decodePaste resp.Body with
    | none => .error .decode
    | some pr => if pr.Success then .ok pr else .error (.service pr.Error)

/-- GetRawLog retrieves the raw log content by its id (translated from the
mclogs client source). When the response content type has the plain-text
prefix the body is returned as the text; otherwise the body is decoded as a
JSON error envelope and its error string is reported. -/
def GetRawLog (w : Wire) (tr : String → Except Unit HTTPResponse)
    (id : String) : Except MclogsError Bytes :=
  match tr id with
  | .error _ => .error .transport
  | .ok resp =>
    if strStartsWith resp.ContentType "text/plain" then
      match resp.Body with
      | .error _ => .error .readBody
      | .ok b => .ok b
    else
      match decodeBody w.decodeErrEnvelope resp.Body with
      | none => .error .decode
      | some e => .error (.service e.Error)

/-- GetInsights retrieves parsed insights for the log with the given id
(translated from the mclogs client source). A non-OK status decodes the error
envelope; an OK status decodes the insights payload and rejects it when its
error field is nonempty. -/
def GetInsights (w : Wire) (tr : String → Except Unit HTTPResponse)
    (id : String) : Except MclogsError InsightsResponse :=
  match tr id with
  | .error _ => .error .transport
  | .ok resp =>
    if resp.StatusCode ≠ 200 then
      match decodeBody w.decodeErrEnvelope resp.Body with
      | none => .error .decode
      | some e => .error (.service e.Error)
    else
      match decodeBody w.decodeInsights resp.Body with
      | none => .error .decode
      | some ins => if ins.Error ≠ "" then .error (.service ins.Error) else .ok ins

example : strStartsWith "text/plain; charset=utf-8" "text/plain" = true := by decide
example : strStartsWith "application/json" "text/plain" = false := by decide
example : queryUnescape (queryEscape [104, 105, 32, 37]) = some [104, 105, 32, 37] := by decide

/-- A Discord message attachment as the handler reads it: URL, declared
content type, and declared size in bytes (the declared size is carried by the
platform event whether or not the code consults it). -/
structure MessageAttachment where
  URL : String
  ContentType : String
  Size : Nat
deriving DecidableEq, Repr

/-- The author of a Discord message. -/
structure User where
  ID : String
  Username : String
deriving DecidableEq, Repr

/-- A message-create event: message id, channel id, author, and the ordered
list of attachments. -/
structure MessageCreate where
  ID : String
  ChannelID : String
  Author : User
  Attachments : List MessageAttachment
deriving DecidableEq, Repr

/-- One embed field of the outbound reply, built as the source builds a
discordgo MessageEmbedField: Name from the insights title, Value from the
paste URL, Inline true. -/
structure ReplyField where
  Name : String
  Value : String
  Inline : Bool
deriving DecidableEq, Repr

/-- The outbound embed, reduced to the parts the specification talks about:
the static title and description strings of the source and the accumulated
fields. Author branding, colour and timestamp carry no per-attachment data
and are omitted. -/
structure MessageEmbed where
  Title : String
  Description : String
  Fields : List ReplyField
deriving DecidableEq, Repr

/-- Observable side effects of one handler run, in the order the model
linearizes them: typing indicator, attachment download, paste submission,
insights retrieval, embed send. -/
inductive Event where
  | typing (channelID : String) : Event
  | httpGet (url : String) : Event
  | pasteSubmit (body : Bytes) : Event
  | insightsGet (id : String) : Event
  | sendEmbed (channelID : String) (fields : List ReplyField) : Event
deriving DecidableEq, Repr

/-- Outcome of the download of one attachment: the http.Get call fails, the
io.ReadAll of the body fails, or a byte body is obtained. -/
inductive FetchOutcome where
  | getErr : FetchOutcome
  | readErr : FetchOutcome
  | ok (body : Bytes) : FetchOutcome
deriving DecidableEq, Repr

/-- Environment of one handler run: the download oracle keyed by attachment
URL, and the wire codecs and transports behind the shared mclogs client. -/
structure Env where
  fetch : String → FetchOutcome
  wire : Wire
  pasteTransport : Bytes → Except Unit HTTPResponse
  insightsTransport : String → Except Unit HTTPResponse

/-- Result of one per-attachment worker goroutine: it returned early and
contributed nothing, it appended a reply field, or it panicked (the
goroutine dereferences the nil insights pointer when GetInsights fails,
which crashes the whole process). -/
inductive WorkerOutcome where
  | dropped : WorkerOutcome
  | field (f : ReplyField) : WorkerOutcome
  | panicked : WorkerOutcome
deriving DecidableEq, Repr

/-- The reply field a worker outcome contributes, if any. -/
def outcomeField : WorkerOutcome → Option ReplyField
  | .field f => some f
  | _ => none

/-- Did this worker outcome crash the process. -/
def isPanicked : WorkerOutcome → Bool
  | .panicked => true
  | _ => false

/-- The per-attachment worker, translated from the body of the goroutine in
handleMessageCreate: download the attachment (early return on http.Get or
io.ReadAll failure), skip bodies over the 10 MiB ceiling, submit the body via
the mclogs client (early return on failure), then request insights for the
returned paste id. On insights failure the source logs the error but goes on
to read Title from the nil insights pointer, a runtime panic, modelled as the
panicked outcome; on insights success it appends a field with the insights
title and the paste URL. Returns the events issued and the outcome. -/
def processAttachment (e : Env) (a : MessageAttachment) :
    List Event × WorkerOutcome :=
  match e.fetch a.URL with
  | .getErr => ([.httpGet a.URL], .dropped)
  | .readErr => ([.httpGet a.URL], .dropped)
  | .ok body =>
    if body.length > 10 * 1024 * 1024 then ([.httpGet a.URL], .dropped)
    else
      match PasteLog e.wire e.pasteTransport body with
      | .error _ => ([.httpGet a.URL, .pasteSubmit body], .dropped)
      | .ok pr =>
        match GetInsights e.wire e.insightsTransport pr.ID with
        | .error _ =>
          ([.httpGet a.URL, .pasteSubmit body, .insightsGet pr.ID], .panicked)
        | .ok an =>
          ([.httpGet a.URL, .pasteSubmit body, .insightsGet pr.ID],
            .field { Name := an.Title, Value := pr.URL, Inline := true })

/-- Does the attachment count gate of handleMessageCreate reject the whole
message: fewer than one or more than five attachments. -/
def gateRejected (m : MessageCreate) : Bool :=
  m.Attachments.length < 1 || m.Attachments.length > 5

/-- The attachments the feeder goroutine sends to workers: those whose
declared content type starts with text/plain, in message order. -/
def eligibleAttachments (m : MessageCreate) : List MessageAttachment :=
  m.Attachments.filter (fun a => strStartsWith a.ContentType "text/plain")

/-- The embed the reply assembler builds around the collected fields,
with the static strings of the source. -/
def buildEmbed (fs : List ReplyField) : MessageEmbed :=
  { Title := "Your logs were uploaded for easier reading"
    Description := "-# [Why?](https://github.com/EmilyxFox/go-mclogs-bot/blob/main/why.md) [Source](https://github.com/emilyxfox/go-mclogs-bot)"
    Fields := fs }

/-- Result of one handler run: the linearized event trace, the reply embed if
one was sent, and whether a worker panic crashed the process (in which case
no reply is ever sent). -/
structure RunResult where
  events : List Event
  reply : Option MessageEmbed
  crashed : Bool
deriving Repr

/-- The typing prelude of a run: the feeder signals typing on the channel
once, before it dispatches the first eligible attachment; no eligible
attachments, no typing. -/
def preEvents (m : MessageCreate) : List Event :=
  if (eligibleAttachments m).isEmpty then [] else [Event.typing m.ChannelID]

/-- The events of all workers of a message, linearized in message order. -/
def workerEvents (e : Env) (m : MessageCreate) : List Event :=
  (((eligibleAttachments m).map (processAttachment e)).map Prod.fst).flatten

/-- The worker outcomes of a message, in message order. -/
def workerOutcomes (e : Env) (m : MessageCreate) : List WorkerOutcome :=
  ((eligibleAttachments m).map (processAttachment e)).map Prod.snd

/-- The message handler, translated from the concurrent handleMessageCreate:
reject the message when the attachment count is out of bounds; otherwise the
feeder goroutine walks the attachments, signals typing on the channel once
before dispatching the first eligible attachment, and feeds each eligible
attachment to a worker; workers run processAttachment and append their fields
under a mutex; after the wait barrier, an empty field list sends nothing,
otherwise one embed carrying all fields is sent to the channel. The model
linearizes worker events in message order; every property proved below is
insensitive to the interleaving order of the workers. -/
def handleMessageCreate (e : Env) (m : MessageCreate) : RunResult :=
  if gateRejected m then { events := [], reply := none, crashed := false }
  else if (workerOutcomes e m).any isPanicked then
    { events := preEvents m ++ workerEvents e m, reply := none, crashed := true }
  else if ((workerOutcomes e m).filterMap outcomeField).isEmpty then
    { events := preEvents m ++ workerEvents e m, reply := none, crashed := false }
  else
    { events := preEvents m ++ workerEvents e m ++
        [Event.sendEmbed m.ChannelID ((workerOutcomes e m).filterMap outcomeField)]
      reply := some (buildEmbed ((workerOutcomes e m).filterMap outcomeField))
      crashed := false }

/-- The reply fields a run delivered, empty when no reply was sent. -/
def RunResult.sentFields (r : RunResult) : List ReplyField :=
  match r.reply with
  | some emb => emb.Fields
  | none => []

/-- Is this event the typing indicator. -/
def isTypingEvent : Event → Bool
  | .typing _ => true
  | _ => false

/-- Is this event an attachment download. -/
def isHttpGetEvent : Event → Bool
  | .httpGet _ => true
  | _ => false

/-- Is this event a paste submission. -/
def isPasteSubmitEvent : Event → Bool
  | .pasteSubmit _ => true
  | _ => false

/-- Is this event an outbound embed send. -/
def isSendEvent : Event → Bool
  | .sendEmbed _ _ => true
  | _ => false

/-- The URL of a download event, if it is one. -/
def httpGetUrl : Event → Option String
  | .httpGet u => some u
  | _ => none

/-! ## Client lemmas: form encoding round trip -/

/-- Hex digits emitted by the escaper decode back to their value. -/
lemma hexVal_hexDigitUpper (n : Nat) (h : n < 16) :
    hexVal (hexDigitUpper n) = some n := by
  unfold hexDigitUpper hexVal
  by_cases h10 : n < 10
  · rw [if_pos h10, if_pos (by omega)]
    congr 1
    omega
  · rw [if_neg h10, if_neg (by omega), if_pos (by omega)]
    congr 1
    omega

/-- An unreserved byte is neither the percent nor the plus byte. -/
lemma isUnreservedByte_ne (c : Nat) (h : isUnreservedByte c = true) :
    c ≠ 37 ∧ c ≠ 43 := by
  unfold isUnreservedByte at h
  simp only [Bool.or_eq_true, Bool.and_eq_true, decide_eq_true_eq] at h
  omega

/-- Unfolding lemma: unescaping a plus byte yields a space and continues. -/
lemma queryUnescape_plus (t : Bytes) :
    queryUnescape (43 :: t) = (queryUnescape t).map (fun r => 32 :: r) := by
  match t with
  | [] => rfl
  | [x] => rfl
  | x :: y :: t2 => rfl

/-- Unfolding lemma: unescaping an ordinary byte copies it and continues. -/
lemma queryUnescape_other (c : Nat) (t : Bytes) (h37 : c ≠ 37) (h43 : c ≠ 43) :
    queryUnescape (c :: t) = (queryUnescape t).map (fun r => c :: r) := by
  match t with
  | [] =>
    simp only [queryUnescape]
    rw [if_neg h37, if_neg h43]
  | [x] =>
    simp only [queryUnescape]
    rw [if_neg h37, if_neg h43]
  | x :: y :: t2 =>
    simp only [queryUnescape]
    rw [if_neg h37, if_neg h43]

/-- Unfolding lemma: unescaping a percent escape decodes the two hex digits
and continues. -/
lemma queryUnescape_percent (h l : Nat) (t : Bytes) :
    queryUnescape (37 :: h :: l :: t) =
      match hexVal h, hexVal l, queryUnescape t with
      | some hv, some lv, some r => some ((hv * 16 + lv) :: r)
      | _, _, _ => none := rfl

/-- Decoding inverts encoding: for every byte string, url.QueryUnescape
recovers exactly what url.QueryEscape produced. -/
lemma queryUnescape_queryEscape (s : Bytes) (h : ∀ b ∈ s, b < 256) :
    queryUnescape (queryEscape s) = some s := by
  induction s with
  | nil => rfl
  | cons c rest ih =>
    have hc : c < 256 := h c (by simp)
    have hrest : ∀ b ∈ rest, b < 256 := fun b hb => h b (by simp [hb])
    have ihr := ih hrest
    by_cases h32 : c = 32
    · subst h32
      show queryUnescape (43 :: queryEscape rest) = some (32 :: rest)
      rw [queryUnescape_plus, ihr]
      rfl
    · by_cases hur : isUnreservedByte c = true
      · obtain ⟨h37, h43⟩ := isUnreservedByte_ne c hur
        simp only [queryEscape, if_neg h32, if_pos hur, List.cons_append,
          List.nil_append]
        rw [queryUnescape_other c _ h37 h43, ihr]
        rfl
      · simp only [queryEscape, if_neg h32, if_neg hur, List.cons_append,
          List.nil_append]
        have hdiv : hexVal (hexDigitUpper (c / 16)) = some (c / 16) :=
          hexVal_hexDigitUpper _ (by omega)
        have hmod : hexVal (hexDigitUpper (c % 16)) = some (c % 16) :=
          hexVal_hexDigitUpper _ (by omega)
        rw [queryUnescape_percent, hdiv, hmod, ihr]
        simp only [Option.some.injEq, List.cons.injEq]
        exact ⟨by omega, trivial⟩

/-! ## Stub service for the round-trip property -/

/-- The paste response the stub service returns for every submission. -/
def stubPasteResponse : PasteResponse :=
  { Success := true
    ID := "abc"
    URL := "https://mclo.gs/abc"
    Raw := "https://api.mclo.gs/1/raw/abc"
    Error := "" }

/-- Modelled from the spec: the storage step of a stub paste service that
stores submitted content. The stub parses the form-encoded request body the
client sends (the content field name, an equals sign, the query-escaped
value) and stores the decoded bytes. -/
def stubStore (reqBody : Bytes) : Option Bytes :=
  if (asciiBytes "content=").isPrefixOf reqBody then
    queryUnescape (reqBody.drop 8)
  else none

/-- Modelled from the spec: wire codecs for talking to the stub service. The
stub acknowledges every submission with its fixed success response; the error
paths are never exercised in the round trip. -/
def stubWire : Wire :=
  { decodePaste := fun _ => some stubPasteResponse
    decodeErrEnvelope := fun _ => none
    decodeInsights := fun _ => none }

/-- Modelled from the spec: the submission endpoint of the stub service,
always answering 200 with a JSON body that decodes to the fixed success
response. -/
def stubPasteTransport : Bytes → Except Unit HTTPResponse :=
  fun _ => .ok { StatusCode := 200, ContentType := "application/json", Body := .ok [] }

/-- Modelled from the spec: the raw-content endpoint of the stub service,
serving the stored paste back as plain text under the id the stub assigned,
and a JSON error otherwise. -/
def stubRawTransport (stored : Option Bytes) : String → Except Unit HTTPResponse :=
  fun id =>
    if id = "abc" then
      match stored with
      | some b => .ok { StatusCode := 200, ContentType := "text/plain", Body := .ok b }
      | none => .ok { StatusCode := 404, ContentType := "application/json", Body := .ok [] }
    else .ok { StatusCode := 404, ContentType := "application/json", Body := .ok [] }

/-- C9: Round-trip: for every content byte string, submitting it via PasteLog
against the stub service stores exactly the submitted bytes, the submission
succeeds, and fetching the stored paste back via GetRawLog under the returned
id yields bytes identical to the submitted content. -/
theorem c9_roundtrip (content : Bytes) (h : ∀ b ∈ content, b < 256) :
    stubStore (formEncodeContent content) = some content ∧
    PasteLog stubWire stubPasteTransport content = .ok stubPasteResponse ∧
    GetRawLog stubWire (stubRawTransport (stubStore (formEncodeContent content)))
      stubPasteResponse.ID = .ok content := by
  have hstore : stubStore (formEncodeContent content) = some content := by
    unfold stubStore formEncodeContent
    rw [if_pos (by exact List.isPrefixOf_iff_prefix.mpr (List.prefix_append _ _))]
    have hdrop : (asciiBytes "content=" ++ queryEscape content).drop 8 =
        queryEscape content := by
      have hlen : (asciiBytes "content=").length = 8 := by decide
      rw [← hlen, List.drop_left]
    rw [hdrop, queryUnescape_queryEscape content h]
  refine ⟨hstore, rfl, ?_⟩
  rw [hstore]
  rfl

/-- C9 witness: the round trip at the concrete content string hello world. -/
theorem c9_roundtrip_witness :
    stubStore (formEncodeContent (asciiBytes "hello world")) =
      some (asciiBytes "hello world") ∧
    PasteLog stubWire stubPasteTransport (asciiBytes "hello world") =
      .ok stubPasteResponse ∧
    GetRawLog stubWire
      (stubRawTransport (stubStore (formEncodeContent (asciiBytes "hello world"))))
      stubPasteResponse.ID = .ok (asciiBytes "hello world") :=
  c9_roundtrip (asciiBytes "hello world") (by decide)

/-! ## Client contracts -/

/-- C8: PasteLog contract: the operation sends the content as a form-encoded
body to the transport, and fails with an error exactly when the transport
fails, the response body fails to decode, or the decoded response has a false
success flag, in the last case propagating the service-supplied error string;
otherwise it returns the decoded paste result. -/
theorem c8_pastelog_contract (w : Wire) (tr : Bytes → Except Unit HTTPResponse)
    (c : Bytes) :
    (tr (formEncodeContent c) = .error () → PasteLog w tr c = .error .transport) ∧
    (∀ resp, tr (formEncodeContent c) = .ok resp →
      (decodeBody w.decodePaste resp.Body = none →
        PasteLog w tr c = .error .decode) ∧
      (∀ pr, decodeBody w.decodePaste resp.Body = some pr →
        (pr.Success = false → PasteLog w tr c = .error (.service pr.Error)) ∧
        (pr.Success = true → PasteLog w tr c = .ok pr))) ∧
    ((∃ err, PasteLog w tr c = .error err) ↔
      tr (formEncodeContent c) = .error () ∨
      ∃ resp, tr (formEncodeContent c) = .ok resp ∧
        (decodeBody w.decodePaste resp.Body = none ∨
         ∃ pr, decodeBody w.decodePaste resp.Body = some pr ∧
           pr.Success = false)) := by
  rcases htr : tr (formEncodeContent c) with u | resp
  · cases u
    have hP : PasteLog w tr c = .error .transport := by
      simp [PasteLog, htr]
    refine ⟨fun _ => hP, ?_, ?_⟩
    · intro resp hresp
      cases hresp
    · exact ⟨fun _ => Or.inl rfl, fun _ => ⟨.transport, hP⟩⟩
  · rcases hdec : decodeBody w.decodePaste resp.Body with _ | pr
    · have hP : PasteLog w tr c = .error .decode := by
        simp [PasteLog, htr, hdec]
      refine ⟨fun habs => ?_, ?_, ?_⟩
      · cases habs
      · intro resp2 hresp2
        injection hresp2 with he
        subst he
        refine ⟨fun _ => hP, fun pr hpr => ?_⟩
        rw [hdec] at hpr
        cases hpr
      · exact ⟨fun _ => Or.inr ⟨resp, rfl, Or.inl hdec⟩, fun _ => ⟨.decode, hP⟩⟩
    · rcases hs : pr.Success with _ | _
      · have hP : PasteLog w tr c = .error (.service pr.Error) := by
          simp [PasteLog, htr, hdec, hs]
        refine ⟨fun habs => ?_, ?_, ?_⟩
        · cases habs
        · intro resp2 hresp2
          injection hresp2 with he
          subst he
          refine ⟨fun hnone => ?_, ?_⟩
          · rw [hdec] at hnone
            cases hnone
          · intro pr2 hpr2
            rw [hdec] at hpr2
            injection hpr2 with he2
            subst he2
            refine ⟨fun _ => hP, fun htrue => ?_⟩
            rw [hs] at htrue
            cases htrue
        · exact ⟨fun _ => Or.inr ⟨resp, rfl, Or.inr ⟨pr, hdec, hs⟩⟩,
            fun _ => ⟨.service pr.Error, hP⟩⟩
      · have hP : PasteLog w tr c = .ok pr := by
          simp [PasteLog, htr, hdec, hs]
        refine ⟨fun habs => ?_, ?_, ?_⟩
        · cases habs
        · intro resp2 hresp2
          injection hresp2 with he
          subst he
          refine ⟨fun hnone => ?_, ?_⟩
          · rw [hdec] at hnone
            cases hnone
          · intro pr2 hpr2
            rw [hdec] at hpr2
            injection hpr2 with he2
            subst he2
            refine ⟨fun hfalse => ?_, fun _ => hP⟩
            rw [hs] at hfalse
            cases hfalse
        · constructor
          · rintro ⟨err, herr⟩
            rw [hP] at herr
            cases herr
          · rintro (habs | ⟨resp2, hresp2, habs⟩)
            · cases habs
            · injection hresp2 with he
              subst he
              rcases habs with hnone | ⟨pr2, hpr2, hs2⟩
              · rw [hdec] at hnone
                cases hnone
              · rw [hdec] at hpr2
                injection hpr2 with he2
                subst he2
                rw [hs] at hs2
                cases hs2

/-- C8 witness: the contract applied at a concrete wire, transport and
content, exercising the success branch. -/
theorem c8_pastelog_contract_witness :
    PasteLog stubWire stubPasteTransport (asciiBytes "log line") =
      .ok stubPasteResponse :=
  (((c8_pastelog_contract stubWire stubPasteTransport
      (asciiBytes "log line")).2.1
    { StatusCode := 200, ContentType := "application/json", Body := .ok [] }
    rfl).2 stubPasteResponse rfl).2 rfl

/-- C10: success-result invariant of the client: a non-error return of
PasteLog always carries a true success flag, and a non-error return of
GetInsights always carries an empty error field. -/
theorem c10_success_invariant :
    (∀ (w : Wire) (tr : Bytes → Except Unit HTTPResponse) (c : Bytes)
        (pr : PasteResponse), PasteLog w tr c = .ok pr → pr.Success = true) ∧
    (∀ (w : Wire) (tr : String → Except Unit HTTPResponse) (id : String)
        (ins : InsightsResponse), GetInsights w tr id = .ok ins →
          ins.Error = "") := by
  constructor
  · intro w tr c pr h
    rcases htr : tr (formEncodeContent c) with u | resp
    · simp [PasteLog, htr] at h
    · simp only [PasteLog, htr] at h
      rcases hdec : decodeBody w.decodePaste resp.Body with _ | pr2
      · simp [hdec] at h
      · simp only [hdec] at h
        rcases hs : pr2.Success with _ | _
        · rw [if_neg (by simp [hs])] at h
          cases h
        · rw [if_pos hs] at h
          injection h with he
          subst he
          exact hs
  · intro w tr id ins h
    rcases htr : tr id with u | resp
    · simp [GetInsights, htr] at h
    · simp only [GetInsights, htr] at h
      by_cases hst : resp.StatusCode ≠ 200
      · rw [if_pos hst] at h
        rcases hdec : decodeBody w.decodeErrEnvelope resp.Body with _ | e
        · simp [hdec] at h
        · simp only [hdec] at h
          cases h
      · rw [if_neg hst] at h
        rcases hdec : decodeBody w.decodeInsights resp.Body with _ | ins2
        · simp [hdec] at h
        · simp only [hdec] at h
          by_cases herr : ins2.Error ≠ ""
          · rw [if_pos herr] at h
            cases h
          · rw [if_neg herr] at h
            injection h with he
            subst he
            exact not_ne_iff.mp herr

/-- Concrete insights payload used by witnesses: a successful response with
an empty error field. -/
def okInsights : InsightsResponse :=
  { ID := "abc"
    Name := "server.log"
    TypeName := "Server Log"
    Version := "1.18"
    Title := "Server Log 1.18"
    AnalysisData := { Problems := [], Information := [] }
    Error := "" }

/-- Wire codecs used by handler witnesses: every paste body decodes to the
stub success response and every insights body decodes to the concrete
successful insights payload. -/
def okWire : Wire :=
  { decodePaste := fun _ => some stubPasteResponse
    decodeErrEnvelope := fun _ => some { Success := false, Error := "Log not found." }
    decodeInsights := fun _ => some okInsights }

/-- Transport used by handler witnesses: every request succeeds with an OK
status and an empty readable body. -/
def okTransport : Except Unit HTTPResponse :=
  .ok { StatusCode := 200, ContentType := "application/json", Body := .ok [] }

/-- C10 witness: the invariant applied to concrete successful PasteLog and
GetInsights runs. -/
theorem c10_success_invariant_witness :
    stubPasteResponse.Success = true ∧ okInsights.Error = "" :=
  ⟨c10_success_invariant.1 stubWire stubPasteTransport (asciiBytes "x")
      stubPasteResponse rfl,
   c10_success_invariant.2 okWire (fun _ => okTransport) "abc" okInsights rfl⟩

/-! ## Worker and handler lemmas -/

/-- Every worker issues exactly one download, for its own attachment URL. -/
lemma processAttachment_httpGets (e : Env) (a : MessageAttachment) :
    (processAttachment e a).1.filterMap httpGetUrl = [a.URL] := by
  rcases hf : e.fetch a.URL with _ | _ | body
  · simp [processAttachment, hf, httpGetUrl]
  · simp [processAttachment, hf, httpGetUrl]
  · by_cases hlen : body.length > 10 * 1024 * 1024
    · simp [processAttachment, hf, if_pos hlen, httpGetUrl]
    · rcases hp : PasteLog e.wire e.pasteTransport body with err | pr
      · simp [processAttachment, hf, if_neg hlen, hp, httpGetUrl]
      · rcases hi : GetInsights e.wire e.insightsTransport pr.ID with err | an
        · simp [processAttachment, hf, if_neg hlen, hp, hi, httpGetUrl]
        · simp [processAttachment, hf, if_neg hlen, hp, hi, httpGetUrl]

/-- A worker never signals typing. -/
lemma processAttachment_noTyping (e : Env) (a : MessageAttachment) :
    (processAttachment e a).1.countP isTypingEvent = 0 := by
  rcases hf : e.fetch a.URL with _ | _ | body
  · simp [processAttachment, hf, isTypingEvent]
  · simp [processAttachment, hf, isTypingEvent]
  · by_cases hlen : body.length > 10 * 1024 * 1024
    · simp [processAttachment, hf, if_pos hlen, isTypingEvent]
    · rcases hp : PasteLog e.wire e.pasteTransport body with err | pr
      · simp [processAttachment, hf, if_neg hlen, hp, isTypingEvent]
      · rcases hi : GetInsights e.wire e.insightsTransport pr.ID with err | an
        · simp [processAttachment, hf, if_neg hlen, hp, hi, isTypingEvent]
        · simp [processAttachment, hf, if_neg hlen, hp, hi, isTypingEvent]

/-- The downloads of a worker list are exactly one per attachment, in order. -/
lemma flatten_httpGets (e : Env) (l : List MessageAttachment) :
    (((l.map (processAttachment e)).map Prod.fst).flatten).filterMap httpGetUrl =
      l.map (fun a => a.URL) := by
  induction l with
  | nil => rfl
  | cons a t ih =>
    simp only [List.map_cons, List.flatten_cons, List.filterMap_append, ih,
      processAttachment_httpGets]
    rfl

/-- The worker event lists contain no typing events. -/
lemma flatten_noTyping (e : Env) (l : List MessageAttachment) :
    (((l.map (processAttachment e)).map Prod.fst).flatten).countP isTypingEvent
      = 0 := by
  induction l with
  | nil => rfl
  | cons a t ih =>
    simp only [List.map_cons, List.flatten_cons, List.countP_append, ih,
      processAttachment_noTyping]

/-- The reply fields the collected worker outcomes of a message contribute,
in message order. -/
def collectedFields (e : Env) (m : MessageCreate) : List ReplyField :=
  (eligibleAttachments m).filterMap
    (fun b => outcomeField (processAttachment e b).2)

/-- Did some worker of this message panic. -/
def somePanicked (e : Env) (m : MessageCreate) : Bool :=
  (eligibleAttachments m).any (fun b => isPanicked (processAttachment e b).2)

/-- The field list the handler assembles equals collectedFields. -/
lemma handler_fs_eq (e : Env) (m : MessageCreate) :
    (workerOutcomes e m).filterMap outcomeField = collectedFields e m := by
  unfold workerOutcomes collectedFields
  rw [List.map_map, List.filterMap_map]
  rfl

/-- The panic test of the handler equals somePanicked. -/
lemma handler_panic_eq (e : Env) (m : MessageCreate) :
    (workerOutcomes e m).any isPanicked = somePanicked e m := by
  unfold workerOutcomes somePanicked
  generalize eligibleAttachments m = l
  induction l with
  | nil => rfl
  | cons a t ih =>
    simp only [List.map_cons, List.any_cons, ih]

/-- Characterization of an accepted run in terms of preEvents, workerEvents,
somePanicked and collectedFields. -/
lemma handler_run (e : Env) (m : MessageCreate) (hg : gateRejected m = false) :
    handleMessageCreate e m =
      if somePanicked e m then
        { events := preEvents m ++ workerEvents e m, reply := none,
          crashed := true }
      else if (collectedFields e m).isEmpty then
        { events := preEvents m ++ workerEvents e m, reply := none,
          crashed := false }
      else
        { events := preEvents m ++ workerEvents e m ++
            [Event.sendEmbed m.ChannelID (collectedFields e m)]
          reply := some (buildEmbed (collectedFields e m))
          crashed := false } := by
  unfold handleMessageCreate
  rw [hg, handler_panic_eq, handler_fs_eq]
  simp only [Bool.false_eq_true, if_false]

/-- A downloaded body over the 10 MiB ceiling makes the worker return after
the download, with no submission and no field. -/
lemma processAttachment_big (e : Env) (a : MessageAttachment) (body : Bytes)
    (hb : e.fetch a.URL = .ok body) (hbig : 10 * 1024 * 1024 < body.length) :
    processAttachment e a = ([Event.httpGet a.URL], .dropped) := by
  simp only [processAttachment, hb]
  rw [if_pos hbig]

/-- A downloaded body at or under the ceiling is always submitted. -/
lemma processAttachment_small_submits (e : Env) (a : MessageAttachment)
    (body : Bytes) (hb : e.fetch a.URL = .ok body)
    (hsmall : body.length ≤ 10 * 1024 * 1024) :
    Event.pasteSubmit body ∈ (processAttachment e a).1 := by
  simp only [processAttachment, hb]
  rw [if_neg (by omega)]
  rcases hp : PasteLog e.wire e.pasteTransport body with err | pr
  · simp
  · rcases hi : GetInsights e.wire e.insightsTransport pr.ID with err | an
    · simp [hi]
    · simp [hi]

/-- The ways an attachment pipeline can fail at or before paste submission:
the download fails, the body read fails, the body is over the ceiling, or the
submission itself fails. -/
def failsBeforeInsights (e : Env) (a : MessageAttachment) : Prop :=
  e.fetch a.URL = .getErr ∨ e.fetch a.URL = .readErr ∨
  (∃ body, e.fetch a.URL = .ok body ∧ 10 * 1024 * 1024 < body.length) ∨
  (∃ body err, e.fetch a.URL = .ok body ∧ body.length ≤ 10 * 1024 * 1024 ∧
    PasteLog e.wire e.pasteTransport body = .error err)

/-- A worker that fails at or before submission is dropped: it neither
contributes a field nor panics. -/
lemma failsBeforeInsights_snd (e : Env) (a : MessageAttachment)
    (hf : failsBeforeInsights e a) : (processAttachment e a).2 = .dropped := by
  rcases hf with h | h | ⟨body, hb, hbig⟩ | ⟨body, err, hb, hsmall, hp⟩
  · simp [processAttachment, h]
  · simp [processAttachment, h]
  · rw [processAttachment_big e a body hb hbig]
  · simp only [processAttachment, hb]
    rw [if_neg (by omega)]
    simp only [hp]

/-- C4: for every eligible attachment whose downloaded body exceeds 10 MiB,
the worker makes no paste submission and produces no reply field; a body of
at most 10 MiB passes the ceiling check and is submitted. -/
theorem c4_size_ceiling (e : Env) (a : MessageAttachment) (body : Bytes)
    (hb : e.fetch a.URL = .ok body) :
    (10 * 1024 * 1024 < body.length →
      processAttachment e a = ([Event.httpGet a.URL], WorkerOutcome.dropped)) ∧
    (body.length ≤ 10 * 1024 * 1024 →
      Event.pasteSubmit body ∈ (processAttachment e a).1) :=
  ⟨fun hbig => processAttachment_big e a body hb hbig,
   fun hsmall => processAttachment_small_submits e a body hb hsmall⟩

/-- A body one byte over the ceiling. -/
def bigBody : Bytes := List.replicate (10 * 1024 * 1024 + 1) 0

/-- Environment whose download oracle serves the oversized body. -/
def envBig : Env :=
  { fetch := fun _ => .ok bigBody
    wire := okWire
    pasteTransport := fun _ => okTransport
    insightsTransport := fun _ => okTransport }

/-- A plain-text attachment used with the oversized download. -/
def attBig : MessageAttachment :=
  { URL := "https://cdn.discordapp.com/big.txt", ContentType := "text/plain"
    Size := 1 }

/-- C4 witness: a concrete download one byte over the ceiling is dropped
without submission. -/
theorem c4_size_ceiling_witness :
    processAttachment envBig attBig =
      ([Event.httpGet attBig.URL], WorkerOutcome.dropped) :=
  (c4_size_ceiling envBig attBig bigBody rfl).1
    (by simp only [bigBody, List.length_replicate]; omega)

/-- An 11 MiB body. -/
def body11 : Bytes := List.replicate (11 * 1024 * 1024) 0

/-- Environment whose download oracle serves the 11 MiB body. -/
def env11 : Env :=
  { fetch := fun _ => .ok body11
    wire := okWire
    pasteTransport := fun _ => okTransport
    insightsTransport := fun _ => okTransport }

/-- An attachment whose declared size matches the 11 MiB download. -/
def att11 : MessageAttachment :=
  { URL := "https://cdn.discordapp.com/eleven.txt", ContentType := "text/plain"
    Size := 11 * 1024 * 1024 }

/-- C5 amended: for an attachment whose downloaded body is 11 MiB, the
pipeline makes no submission call and produces no reply field for it. -/
theorem c5_downloaded_size (e : Env) (a : MessageAttachment) (body : Bytes)
    (hb : e.fetch a.URL = .ok body) (hlen : body.length = 11 * 1024 * 1024) :
    processAttachment e a = ([Event.httpGet a.URL], WorkerOutcome.dropped) ∧
    outcomeField (processAttachment e a).2 = none := by
  have h := processAttachment_big e a body hb (by omega)
  refine ⟨h, ?_⟩
  rw [h]
  rfl

/-- C5 amended witness: the concrete 11 MiB download is dropped without
submission or field. -/
theorem c5_downloaded_size_witness :
    processAttachment env11 att11 =
      ([Event.httpGet att11.URL], WorkerOutcome.dropped) ∧
    outcomeField (processAttachment env11 att11).2 = none :=
  c5_downloaded_size env11 att11 body11 rfl
    (by simp only [body11, List.length_replicate])

/-- An attachment declaring 11 MiB whose actual download is 8 bytes. -/
def cexAtt : MessageAttachment :=
  { URL := "https://cdn.discordapp.com/declared.txt", ContentType := "text/plain"
    Size := 11 * 1024 * 1024 }

/-- Message carrying only the declared-11-MiB attachment. -/
def cexMsg : MessageCreate :=
  { ID := "m1", ChannelID := "ch1", Author := { ID := "a1", Username := "emily" }
    Attachments := [cexAtt] }

/-- Environment serving a tiny body for the declared-11-MiB attachment, with
every service call succeeding. -/
def cexEnv : Env :=
  { fetch := fun _ => .ok (asciiBytes "tiny log")
    wire := okWire
    pasteTransport := fun _ => okTransport
    insightsTransport := fun _ => okTransport }

/-- C5 counterexample: the handler never consults the declared size; an
attachment declaring 11 MiB whose actual download is small is submitted and
does produce a reply field, refuting the claim as stated. -/
theorem c5_declared_size_counterexample :
    cexAtt.Size = 11 * 1024 * 1024 ∧
    Event.pasteSubmit (asciiBytes "tiny log") ∈
      (handleMessageCreate cexEnv cexMsg).events ∧
    (handleMessageCreate cexEnv cexMsg).sentFields =
      [{ Name := okInsights.Title, Value := stubPasteResponse.URL
         Inline := true }] := by
  refine ⟨rfl, ?_, rfl⟩
  decide

/-- The typing prelude contains no downloads. -/
lemma preEvents_httpGets (m : MessageCreate) :
    (preEvents m).filterMap httpGetUrl = [] := by
  unfold preEvents
  split
  · rfl
  · rfl

/-- The worker events contain exactly one download per eligible attachment,
in order. -/
lemma workerEvents_httpGets (e : Env) (m : MessageCreate) :
    (workerEvents e m).filterMap httpGetUrl =
      (eligibleAttachments m).map (fun a => a.URL) := by
  unfold workerEvents
  exact flatten_httpGets e _

/-- The events of an accepted run are the typing prelude and the worker
events, followed by at most one send event. -/
lemma handler_events_eq (e : Env) (m : MessageCreate)
    (hg : gateRejected m = false) :
    (handleMessageCreate e m).events = preEvents m ++ workerEvents e m ∨
    (handleMessageCreate e m).events =
      preEvents m ++ workerEvents e m ++
        [Event.sendEmbed m.ChannelID (collectedFields e m)] := by
  rw [handler_run e m hg]
  cases hsp : somePanicked e m
  · cases hfs : (collectedFields e m).isEmpty
    · simp only [Bool.false_eq_true, if_false]
      exact Or.inr trivial
    · simp only [Bool.false_eq_true, if_false, if_true]
      exact Or.inl trivial
  · simp only [if_true]
    exact Or.inl trivial

/-- C3: the attachment filter: a message with zero or more than five
attachments is rejected outright, with no events (no typing, no network
activity) and no reply; an accepted message downloads exactly the
sub-sequence of attachments whose declared content type starts with
text/plain, in order. -/
theorem c3_attachment_filter (e : Env) (m : MessageCreate) :
    (m.Attachments.length = 0 ∨ 5 < m.Attachments.length →
      handleMessageCreate e m = { events := [], reply := none, crashed := false }) ∧
    (1 ≤ m.Attachments.length → m.Attachments.length ≤ 5 →
      (handleMessageCreate e m).events.filterMap httpGetUrl =
        (m.Attachments.filter
          (fun a => strStartsWith a.ContentType "text/plain")).map
          (fun a => a.URL)) := by
  constructor
  · intro h
    have hg : gateRejected m = true := by
      simp only [gateRejected, Bool.or_eq_true, decide_eq_true_eq]
      omega
    simp [handleMessageCreate, hg]
  · intro h1 h5
    have hg : gateRejected m = false := by
      simp only [gateRejected, Bool.or_eq_false_iff, decide_eq_false_iff_not]
      omega
    rcases handler_events_eq e m hg with hev | hev
    · rw [hev, List.filterMap_append, preEvents_httpGets, workerEvents_httpGets]
      simp [eligibleAttachments]
    · rw [hev, List.filterMap_append, List.filterMap_append, preEvents_httpGets,
        workerEvents_httpGets]
      simp [eligibleAttachments, httpGetUrl]

/-- C3 witness: a message with six attachments is rejected without any event,
and an accepted message downloads exactly its plain-text attachments. -/
theorem c3_attachment_filter_witness :
    handleMessageCreate cexEnv
      { ID := "m6", ChannelID := "ch6"
        Author := { ID := "a6", Username := "u6" }
        Attachments := List.replicate 6 cexAtt } =
      { events := [], reply := none, crashed := false } :=
  (c3_attachment_filter cexEnv
    { ID := "m6", ChannelID := "ch6"
      Author := { ID := "a6", Username := "u6" }
      Attachments := List.replicate 6 cexAtt }).1
    (by simp only [List.length_replicate]; omega)

/-- C7: the typing indicator: for an accepted message with at least one
eligible attachment, the first event of the run is a single typing signal on
the originating channel, and no later event is a typing signal (in
particular every download happens after it); a rejected message or a message
with no eligible attachments never signals typing. -/
theorem c7_typing_once (e : Env) (m : MessageCreate) :
    (gateRejected m = false → eligibleAttachments m ≠ [] →
      ∃ rest, (handleMessageCreate e m).events =
          Event.typing m.ChannelID :: rest ∧
        rest.countP isTypingEvent = 0) ∧
    (gateRejected m = true ∨ eligibleAttachments m = [] →
      (handleMessageCreate e m).events.countP isTypingEvent = 0) := by
  constructor
  · intro hg hne
    have hpre : preEvents m = [Event.typing m.ChannelID] := by
      unfold preEvents
      rw [if_neg (by simp only [List.isEmpty_iff]; exact hne)]
    rcases handler_events_eq e m hg with hev | hev
    · refine ⟨workerEvents e m, ?_, ?_⟩
      · rw [hev, hpre]
        rfl
      · unfold workerEvents
        exact flatten_noTyping e _
    · refine ⟨workerEvents e m ++
        [Event.sendEmbed m.ChannelID (collectedFields e m)], ?_, ?_⟩
      · rw [hev, hpre]
        rfl
      · rw [List.countP_append]
        have h1 : (workerEvents e m).countP isTypingEvent = 0 :=
          flatten_noTyping e _
        rw [h1]
        rfl
  · intro h
    by_cases hg : gateRejected m = true
    · simp [handleMessageCreate, hg]
    · have hgf : gateRejected m = false := by
        exact Bool.not_eq_true _ ▸ (by simpa using hg)
      have hne : eligibleAttachments m = [] := by
        rcases h with h | h
        · exact absurd h hg
        · exact h
      have hpre : preEvents m = [] := by
        unfold preEvents
        rw [if_pos (by simp [hne])]
      have hwe : workerEvents e m = [] := by
        unfold workerEvents
        rw [hne]
        rfl
      rcases handler_events_eq e m hgf with hev | hev
      · rw [hev, hpre, hwe]
        rfl
      · rw [hev, hpre, hwe]
        rfl

/-- A worker never sends the reply embed. -/
lemma processAttachment_noSend (e : Env) (a : MessageAttachment) :
    (processAttachment e a).1.countP isSendEvent = 0 := by
  rcases hf : e.fetch a.URL with _ | _ | body
  · simp [processAttachment, hf, isSendEvent]
  · simp [processAttachment, hf, isSendEvent]
  · by_cases hlen : body.length > 10 * 1024 * 1024
    · simp [processAttachment, hf, if_pos hlen, isSendEvent]
    · rcases hp : PasteLog e.wire e.pasteTransport body with err | pr
      · simp [processAttachment, hf, if_neg hlen, hp, isSendEvent]
      · rcases hi : GetInsights e.wire e.insightsTransport pr.ID with err | an
        · simp [processAttachment, hf, if_neg hlen, hp, hi, isSendEvent]
        · simp [processAttachment, hf, if_neg hlen, hp, hi, isSendEvent]

/-- The worker event lists contain no send events. -/
lemma flatten_noSend (e : Env) (l : List MessageAttachment) :
    (((l.map (processAttachment e)).map Prod.fst).flatten).countP isSendEvent
      = 0 := by
  induction l with
  | nil => rfl
  | cons a t ih =>
    simp only [List.map_cons, List.flatten_cons, List.countP_append, ih,
      processAttachment_noSend]

/-- The typing prelude contains no send events. -/
lemma preEvents_noSend (m : MessageCreate) :
    (preEvents m).countP isSendEvent = 0 := by
  unfold preEvents
  split
  · rfl
  · rfl

/-- workerEvents contain no send events. -/
lemma workerEvents_noSend (e : Env) (m : MessageCreate) :
    (workerEvents e m).countP isSendEvent = 0 :=
  flatten_noSend e _

/-- The crash flag of an accepted run is exactly the panic test. -/
lemma handler_crashed_eq (e : Env) (m : MessageCreate)
    (hg : gateRejected m = false) :
    (handleMessageCreate e m).crashed = somePanicked e m := by
  rw [handler_run e m hg]
  cases hsp : somePanicked e m
  · cases hfs : (collectedFields e m).isEmpty
    · simp only [Bool.false_eq_true, if_false]
    · simp only [Bool.false_eq_true, if_false, if_true]
  · simp only [if_true]

/-- In a panic-free accepted run, the fields delivered are exactly the
collected fields (empty when no reply was sent). -/
lemma handler_sentFields_eq (e : Env) (m : MessageCreate)
    (hg : gateRejected m = false) (hnp : somePanicked e m = false) :
    (handleMessageCreate e m).sentFields = collectedFields e m := by
  have hrun := handler_run e m hg
  rw [hnp] at hrun
  simp only [Bool.false_eq_true, if_false] at hrun
  cases hfs : (collectedFields e m).isEmpty
  · rw [hfs] at hrun
    simp only [Bool.false_eq_true, if_false] at hrun
    rw [hrun]
    rfl
  · rw [hfs] at hrun
    simp only [if_true] at hrun
    rw [hrun, List.isEmpty_iff.mp hfs]
    rfl

/-- C6: the reply assembler: when no worker panicked, an empty set of
successful outcomes sends no reply (no send event, no embed); a nonempty set
sends exactly one message whose fields are exactly the collected fields, one
per successful outcome. -/
theorem c6_reply_assembler (e : Env) (m : MessageCreate)
    (hg : gateRejected m = false) (hnp : somePanicked e m = false) :
    (collectedFields e m = [] →
      (handleMessageCreate e m).reply = none ∧
      (handleMessageCreate e m).events.countP isSendEvent = 0) ∧
    (collectedFields e m ≠ [] →
      (handleMessageCreate e m).reply =
        some (buildEmbed (collectedFields e m)) ∧
      (buildEmbed (collectedFields e m)).Fields = collectedFields e m ∧
      (handleMessageCreate e m).events.countP isSendEvent = 1 ∧
      (collectedFields e m).length =
        (workerOutcomes e m).countP (fun o => (outcomeField o).isSome)) := by
  have hrun := handler_run e m hg
  rw [hnp] at hrun
  simp only [Bool.false_eq_true, if_false] at hrun
  constructor
  · intro hfs
    rw [hfs] at hrun
    simp only [List.isEmpty_nil, if_true] at hrun
    constructor
    · rw [hrun]
    · rw [hrun]
      simp only [List.countP_append, preEvents_noSend, workerEvents_noSend]
  · intro hfs
    have hfalse : (collectedFields e m).isEmpty = false := by
      cases h : (collectedFields e m).isEmpty
      · rfl
      · exact absurd (List.isEmpty_iff.mp h) hfs
    rw [hfalse] at hrun
    simp only [Bool.false_eq_true, if_false] at hrun
    refine ⟨by rw [hrun], rfl, ?_, ?_⟩
    · rw [hrun]
      simp only [List.countP_append, preEvents_noSend, workerEvents_noSend]
      rfl
    · rw [← handler_fs_eq, List.length_filterMap_eq_countP]

/-- C6 witness: the assembler applied to the concrete one-attachment success
run: one send event, one field, field count equal to success count. -/
theorem c6_reply_assembler_witness :
    (handleMessageCreate cexEnv cexMsg).reply =
      some (buildEmbed (collectedFields cexEnv cexMsg)) ∧
    (buildEmbed (collectedFields cexEnv cexMsg)).Fields =
      collectedFields cexEnv cexMsg ∧
    (handleMessageCreate cexEnv cexMsg).events.countP isSendEvent = 1 ∧
    (collectedFields cexEnv cexMsg).length =
      (workerOutcomes cexEnv cexMsg).countP (fun o => (outcomeField o).isSome) :=
  (c6_reply_assembler cexEnv cexMsg rfl rfl).2 (by decide)

/-- C7 witness: the typing property applied to the concrete accepted message
with one eligible attachment. -/
theorem c7_typing_once_witness :
    ∃ rest, (handleMessageCreate cexEnv cexMsg).events =
        Event.typing cexMsg.ChannelID :: rest ∧
      rest.countP isTypingEvent = 0 :=
  (c7_typing_once cexEnv cexMsg).1 rfl (by decide)

/-- A worker outcome is panicked exactly when the panic test says so. -/
lemma isPanicked_iff (o : WorkerOutcome) :
    isPanicked o = true ↔ o = WorkerOutcome.panicked := by
  cases o <;> simp [isPanicked]

/-- C1: per-attachment error isolation: an eligible attachment whose pipeline
fails at download, body read, size check or paste submission is dropped (it
neither yields a field nor panics); a crash of the run can come only from a
different attachment; and in a crash-free run the delivered fields are
exactly the collected fields of all eligible attachments, each computed
independently, with the failing attachment contributing none. -/
theorem c1_isolation (e : Env) (m : MessageCreate) (a : MessageAttachment)
    (hg : gateRejected m = false) (ha : a ∈ eligibleAttachments m)
    (hf : failsBeforeInsights e a) :
    (processAttachment e a).2 = WorkerOutcome.dropped ∧
    ((handleMessageCreate e m).crashed = true →
      ∃ b, b ∈ eligibleAttachments m ∧ b ≠ a ∧
        (processAttachment e b).2 = WorkerOutcome.panicked) ∧
    ((handleMessageCreate e m).crashed = false →
      (handleMessageCreate e m).sentFields = collectedFields e m ∧
      outcomeField (processAttachment e a).2 = none) := by
  have hdrop := failsBeforeInsights_snd e a hf
  refine ⟨hdrop, ?_, ?_⟩
  · intro hcr
    rw [handler_crashed_eq e m hg] at hcr
    unfold somePanicked at hcr
    obtain ⟨b, hb, hpb⟩ := List.any_eq_true.mp hcr
    have hbp : (processAttachment e b).2 = WorkerOutcome.panicked :=
      (isPanicked_iff _).mp hpb
    refine ⟨b, hb, ?_, hbp⟩
    intro hba
    rw [hba, hdrop] at hbp
    cases hbp
  · intro hcr
    rw [handler_crashed_eq e m hg] at hcr
    refine ⟨handler_sentFields_eq e m hg hcr, ?_⟩
    rw [hdrop]
    rfl

/-- Attachment whose download fails in the isolation witness. -/
def isoAttFail : MessageAttachment :=
  { URL := "https://cdn.discordapp.com/fail.txt", ContentType := "text/plain"
    Size := 3 }

/-- Sibling attachment that succeeds in the isolation witness. -/
def isoAttOk : MessageAttachment :=
  { URL := "https://cdn.discordapp.com/ok.txt", ContentType := "text/plain"
    Size := 3 }

/-- Message carrying the failing attachment and its successful sibling. -/
def isoMsg : MessageCreate :=
  { ID := "m2", ChannelID := "ch2", Author := { ID := "a2", Username := "u2" }
    Attachments := [isoAttFail, isoAttOk] }

/-- Environment where the first download fails and everything else
succeeds. -/
def isoEnv : Env :=
  { fetch := fun u =>
      if u = "https://cdn.discordapp.com/fail.txt" then .getErr
      else .ok (asciiBytes "ok log")
    wire := okWire
    pasteTransport := fun _ => okTransport
    insightsTransport := fun _ => okTransport }

/-- C1 witness: isolation applied to the concrete two-attachment message
whose first download fails. -/
theorem c1_isolation_witness :
    (processAttachment isoEnv isoAttFail).2 = WorkerOutcome.dropped ∧
    ((handleMessageCreate isoEnv isoMsg).crashed = true →
      ∃ b, b ∈ eligibleAttachments isoMsg ∧ b ≠ isoAttFail ∧
        (processAttachment isoEnv b).2 = WorkerOutcome.panicked) ∧
    ((handleMessageCreate isoEnv isoMsg).crashed = false →
      (handleMessageCreate isoEnv isoMsg).sentFields =
        collectedFields isoEnv isoMsg ∧
      outcomeField (processAttachment isoEnv isoAttFail).2 = none) :=
  c1_isolation isoEnv isoMsg isoAttFail rfl (by decide) (Or.inl (by decide))

/-- The attachment of the insights-failure run. -/
def panicAtt : MessageAttachment :=
  { URL := "https://cdn.discordapp.com/panic.txt", ContentType := "text/plain"
    Size := 6 }

/-- Message carrying only the insights-failure attachment. -/
def panicMsg : MessageCreate :=
  { ID := "m3", ChannelID := "ch3", Author := { ID := "a3", Username := "u3" }
    Attachments := [panicAtt] }

/-- Environment where download and paste succeed and insights retrieval
fails. -/
def panicEnv : Env :=
  { fetch := fun _ => .ok (asciiBytes "mc log")
    wire := okWire
    pasteTransport := fun _ => okTransport
    insightsTransport := fun _ => .error () }

/-- C2: at a run whose paste submission succeeds and whose insights retrieval
fails, the worker does not produce a fallback-titled field: the source reads
Title from the nil insights pointer, so the worker panics, the process
crashes, and no reply is produced. -/
theorem c2_insights_nil_crash :
    PasteLog panicEnv.wire panicEnv.pasteTransport (asciiBytes "mc log") =
      .ok stubPasteResponse ∧
    GetInsights panicEnv.wire panicEnv.insightsTransport stubPasteResponse.ID =
      .error .transport ∧
    (processAttachment panicEnv panicAtt).2 = WorkerOutcome.panicked ∧
    (handleMessageCreate panicEnv panicMsg).crashed = true ∧
    (handleMessageCreate panicEnv panicMsg).reply = none :=
  ⟨rfl, rfl, rfl, rfl, rfl⟩
